import Mathlib

/-!
Shallow embedding of the macro_imba input-automation engine
(src/core/win_input.py, src/core/config.py, src/core/macro_engine.py),
with theorems checking the natural-language specification against it.

Python dictionaries keyed by strings are modelled as association lists
(insertion ordered, as Python dicts are); optional / falsy values are
modelled with `Option`; OS calls (SendInput, time.sleep) are modelled as
events appended to an explicit trace; booleans returned by the Python
functions are returned alongside the trace.
-/

namespace MacroImba

/-! ## src/core/win_input.py -/

/-- An OS-level injected input event (one SendInput or time.sleep call). -/
inductive InputEvent where
  | keyDown (scan : Nat)
  | keyUp (scan : Nat)
  | mouseDown (flag : Nat)
  | mouseUp (flag : Nat)
  | wait
deriving DecidableEq, Repr

def MOUSEEVENTF_LEFTDOWN : Nat := 0x0002
def MOUSEEVENTF_LEFTUP : Nat := 0x0004
def MOUSEEVENTF_RIGHTDOWN : Nat := 0x0008
def MOUSEEVENTF_RIGHTUP : Nat := 0x0010
def MOUSEEVENTF_MIDDLEDOWN : Nat := 0x0020
def MOUSEEVENTF_MIDDLEUP : Nat := 0x0040

/-- The static key-name → scan-code table `VK_TO_SCANCODE` of win_input.py. -/
def VK_TO_SCANCODE : List (String × Nat) :=
  [("a", 0x1E), ("b", 0x30), ("c", 0x2E), ("d", 0x20), ("e", 0x12),
   ("f", 0x21), ("g", 0x22), ("h", 0x23), ("i", 0x17), ("j", 0x24),
   ("k", 0x25), ("l", 0x26), ("m", 0x32), ("n", 0x31), ("o", 0x18),
   ("p", 0x19), ("q", 0x10), ("r", 0x13), ("s", 0x1F), ("t", 0x14),
   ("u", 0x16), ("v", 0x2F), ("w", 0x11), ("x", 0x2D), ("y", 0x15),
   ("z", 0x2C),
   ("1", 0x02), ("2", 0x03), ("3", 0x04), ("4", 0x05), ("5", 0x06),
   ("6", 0x07), ("7", 0x08), ("8", 0x09), ("9", 0x0A), ("0", 0x0B),
   ("f1", 0x3B), ("f2", 0x3C), ("f3", 0x3D), ("f4", 0x3E),
   ("f5", 0x3F), ("f6", 0x40), ("f7", 0x41), ("f8", 0x42),
   ("f9", 0x43), ("f10", 0x44), ("f11", 0x57), ("f12", 0x58),
   ("space", 0x39), ("enter", 0x1C), ("escape", 0x01), ("esc", 0x01),
   ("tab", 0x0F), ("backspace", 0x0E), ("shift", 0x2A), ("ctrl", 0x1D),
   ("alt", 0x38), ("capslock", 0x3A),
   ("numpad0", 0x52), ("numpad1", 0x4F), ("numpad2", 0x50), ("numpad3", 0x51),
   ("numpad4", 0x4B), ("numpad5", 0x4C), ("numpad6", 0x4D), ("numpad7", 0x47),
   ("numpad8", 0x48), ("numpad9", 0x49)]

/-- The key-name → virtual-key table `VK_CODES` of win_input.py. -/
def VK_CODES : List (String × Nat) :=
  [("a", 0x41), ("b", 0x42), ("c", 0x43), ("d", 0x44), ("e", 0x45),
   ("f", 0x46), ("g", 0x47), ("h", 0x48), ("i", 0x49), ("j", 0x4A),
   ("k", 0x4B), ("l", 0x4C), ("m", 0x4D), ("n", 0x4E), ("o", 0x4F),
   ("p", 0x50), ("q", 0x51), ("r", 0x52), ("s", 0x53), ("t", 0x54),
   ("u", 0x55), ("v", 0x56), ("w", 0x57), ("x", 0x58), ("y", 0x59),
   ("z", 0x5A),
   ("1", 0x31), ("2", 0x32), ("3", 0x33), ("4", 0x34), ("5", 0x35),
   ("6", 0x36), ("7", 0x37), ("8", 0x38), ("9", 0x39), ("0", 0x30),
   ("f1", 0x70), ("f2", 0x71), ("f3", 0x72), ("f4", 0x73),
   ("f5", 0x74), ("f6", 0x75), ("f7", 0x76), ("f8", 0x77),
   ("f9", 0x78), ("f10", 0x79), ("f11", 0x7A), ("f12", 0x7B),
   ("space", 0x20), ("enter", 0x0D), ("escape", 0x1B), ("esc", 0x1B),
   ("tab", 0x09), ("backspace", 0x08), ("shift", 0x10), ("ctrl", 0x11),
   ("alt", 0x12), ("capslock", 0x14),
   ("numpad0", 0x60), ("numpad1", 0x61), ("numpad2", 0x62), ("numpad3", 0x63),
   ("numpad4", 0x64), ("numpad5", 0x65), ("numpad6", 0x66), ("numpad7", 0x67),
   ("numpad8", 0x68), ("numpad9", 0x69)]

/-- Python `str.lower()` (ASCII, which covers every key / button / hotkey
name the program uses), written over the character list so that it reduces
in the kernel. -/
def strLower (s : String) : String := ⟨s.data.map Char.toLower⟩

/-- Python `str.upper()` (ASCII), over the character list. -/
def strUpper (s : String) : String := ⟨s.data.map Char.toUpper⟩

/-- The `DirectInputController`: `available` mirrors the `WINDOWS_AVAILABLE`
flag captured at construction; `mapVirtualKey` models the OS call
`ctypes.windll.user32.MapVirtualKeyW(vk, 0)` used for single printable
characters that are not in the static table. -/
structure DirectInput where
  available : Bool
  mapVirtualKey : Nat → Nat

/-- `ord(key.upper())` for a (lower-cased) one-character key string. -/
def ordUpperFirst (k : String) : Nat :=
  (((strUpper k).data).headD ' ').toNat

/-- `DirectInputController.press_key` (win_input.py lines 122-149):
returns success and the injected events. -/
def press_key (c : DirectInput) (key : String) : Bool × List InputEvent :=
  if c.available = false then (false, [])
  else
    let k := strLower key
    match VK_TO_SCANCODE.lookup k with
    | some scan => (true, [InputEvent.keyDown scan])
    | none =>
      if k.length = 1 then
        (true, [InputEvent.keyDown (c.mapVirtualKey (ordUpperFirst k))])
      else
        (false, [])

/-- `DirectInputController.release_key` (win_input.py lines 151-176). -/
def release_key (c : DirectInput) (key : String) : Bool × List InputEvent :=
  if c.available = false then (false, [])
  else
    let k := strLower key
    match VK_TO_SCANCODE.lookup k with
    | some scan => (true, [InputEvent.keyUp scan])
    | none =>
      if k.length = 1 then
        (true, [InputEvent.keyUp (c.mapVirtualKey (ordUpperFirst k))])
      else
        (false, [])

/-- `DirectInputController.tap_key` (win_input.py lines 178-183):
press; if that failed return false, else sleep then release. -/
def tap_key (c : DirectInput) (key : String) : Bool × List InputEvent :=
  let p := press_key c key
  if p.1 = false then (false, p.2)
  else
    let r := release_key c key
    (r.1, p.2 ++ InputEvent.wait :: r.2)

/-- A record of which controller methods a call into the backend invokes. -/
inductive BackendCall where
  | press (key : String)
  | release (key : String)
  | wait
deriving DecidableEq, Repr

/-- The method invocations performed by one `tap_key` call, read off
win_input.py lines 178-183: `press_key` is always invoked once; `time.sleep`
and `release_key` are invoked only when the press reported success. -/
def tap_key_calls (c : DirectInput) (key : String) : List BackendCall :=
  if (press_key c key).1 then
    [BackendCall.press key, BackendCall.wait, BackendCall.release key]
  else
    [BackendCall.press key]

/-- `DirectInputController.click_mouse` (win_input.py lines 185-219). -/
def click_mouse (c : DirectInput) (button : String) : Bool × List InputEvent :=
  if c.available = false then (false, [])
  else if button = "left" then
    (true, [InputEvent.mouseDown MOUSEEVENTF_LEFTDOWN, InputEvent.wait,
            InputEvent.mouseUp MOUSEEVENTF_LEFTUP])
  else if button = "right" then
    (true, [InputEvent.mouseDown MOUSEEVENTF_RIGHTDOWN, InputEvent.wait,
            InputEvent.mouseUp MOUSEEVENTF_RIGHTUP])
  else if button = "middle" then
    (true, [InputEvent.mouseDown MOUSEEVENTF_MIDDLEDOWN, InputEvent.wait,
            InputEvent.mouseUp MOUSEEVENTF_MIDDLEUP])
  else
    (false, [])

/-- `FallbackController.press_key` (win_input.py line 229): no action. -/
def fallback_press_key (_key : String) : Bool × List InputEvent := (false, [])

/-- `FallbackController.release_key` (win_input.py line 232). -/
def fallback_release_key (_key : String) : Bool × List InputEvent := (false, [])

/-- `FallbackController.tap_key` (win_input.py line 235): returns false
directly, invoking neither press nor release. -/
def fallback_tap_key (_key : String) : Bool × List InputEvent := (false, [])

/-- The method invocations performed by `FallbackController.tap_key`: none. -/
def fallback_tap_key_calls (_key : String) : List BackendCall := []

/-- `FallbackController.click_mouse` (win_input.py line 238). -/
def fallback_click_mouse (_button : String) : Bool × List InputEvent := (false, [])

/-! ## Actions, macros and auto-cast entries (src/core/macro_engine.py data) -/

/-- A macro action, the tagged variants dispatched by
`MacroEngine._execute_action` (macro_engine.py lines 187-237); `other`
stands for a dict whose `type` string is none of the recognized ones,
which that dispatch silently ignores. -/
inductive Action where
  | key_press (key : String)
  | key_hold (key : String) (duration_ms : Nat)
  | mouse_click (button : String)
  | delay (delay_ms : Nat)
  | combo (keys : List String)
  | other
deriving DecidableEq, Repr

/-- A macro definition dict: `{"name": ..., "hotkey": ..., "actions": ...}`
as built by `MacroEngine.add_macro` (macro_engine.py lines 317-324). -/
structure MacroDef where
  name : String
  hotkey : String
  actions : List Action
deriving DecidableEq, Repr

/-- An auto-cast skill entry dict: `{"hotkey": ..., "interval_ms": ...}`
as built by `MacroEngine.add_auto_cast_skill` (macro_engine.py 305-311). -/
structure Skill where
  hotkey : String
  interval_ms : Nat
deriving DecidableEq, Repr

/-! ## src/core/config.py -/

/-- The `quick_cast` section of the settings dict: enabled flag and the
insertion-ordered skill-slot → hotkey mapping. -/
structure QuickCast where
  enabled : Bool
  hotkeys : List (String × String)
deriving DecidableEq, Repr

/-- The `auto_cast` section of the settings dict. -/
structure AutoCast where
  enabled : Bool
  skills : List Skill
  interval_ms : Nat
deriving DecidableEq, Repr

/-- The in-memory settings dict of `MacroConfig`, with the five top-level
keys that `_get_default_settings` establishes (config.py lines 28-50). -/
structure Settings where
  quick_cast : QuickCast
  auto_cast : AutoCast
  macros : List MacroDef
  global_hotkey : String
  toggle_enabled : Bool
deriving DecidableEq, Repr

/-- `MacroConfig._get_default_settings` (config.py lines 28-50). -/
def default_settings : Settings :=
  { quick_cast :=
      { enabled := true
        hotkeys := [("skill_1", "q"), ("skill_2", "w"), ("skill_3", "e"),
                    ("skill_4", "r"), ("skill_5", "d"), ("skill_6", "f")] }
    auto_cast := { enabled := false, skills := [], interval_ms := 100 }
    macros := []
    global_hotkey := "f9"
    toggle_enabled := true }

/-- A parsed configuration document: the top-level keys present in the
YAML file, each replacing the corresponding key of the in-memory dict
when `self.settings.update(loaded)` runs (config.py line 61). -/
structure SettingsDoc where
  quick_cast : Option QuickCast
  auto_cast : Option AutoCast
  macros : Option (List MacroDef)
  global_hotkey : Option String
  toggle_enabled : Option Bool
deriving DecidableEq, Repr

/-- `dict.update(loaded)`: keys present in the document replace the
in-memory value, absent keys keep it. -/
def settingsUpdate (st : Settings) (d : SettingsDoc) : Settings :=
  { quick_cast := d.quick_cast.getD st.quick_cast
    auto_cast := d.auto_cast.getD st.auto_cast
    macros := d.macros.getD st.macros
    global_hotkey := d.global_hotkey.getD st.global_hotkey
    toggle_enabled := d.toggle_enabled.getD st.toggle_enabled }

/-- The possible outcomes of opening and parsing the configuration file in
`MacroConfig.load` (config.py lines 52-64): the file is missing
(`os.path.exists` is false), reading raises `IOError`, parsing raises
`yaml.YAMLError`, or `yaml.safe_load` returns a value — `none` when that
value is falsy (empty file), in which case no update runs. -/
inductive LoadOutcome where
  | missing
  | readError
  | parseError
  | parsed (doc : Option SettingsDoc)
deriving DecidableEq, Repr

/-- `MacroConfig.load` (config.py lines 52-64): returns the success flag
and the in-memory settings after the call. -/
def load (st : Settings) : LoadOutcome → Bool × Settings
  | LoadOutcome.missing => (false, st)
  | LoadOutcome.readError => (false, st)
  | LoadOutcome.parseError => (false, st)
  | LoadOutcome.parsed none => (true, st)
  | LoadOutcome.parsed (some d) => (true, settingsUpdate st d)

/-- `MacroConfig.save` (config.py lines 66-74): `io_ok` is whether the
open/dump completed without `IOError`; the in-memory settings are returned
unchanged in either case (`save` never writes to them). -/
def save (st : Settings) (io_ok : Bool) : Bool × Settings :=
  if io_ok then (true, st) else (false, st)

/-- `MacroConfig.add_auto_cast_skill` (config.py lines 112-118): appends
the entry to the list unconditionally and returns nothing. -/
def addAutoCastSkill (skills : List Skill) (s : Skill) : List Skill :=
  skills ++ [s]

/-- `MacroConfig.remove_auto_cast_skill` (config.py lines 120-127):
scan in order, pop the first entry whose hotkey equals the argument and
return true; return false leaving the list as it was when none matches. -/
def removeAutoCastSkill : List Skill → String → Bool × List Skill
  | [], _ => (false, [])
  | s :: rest, hk =>
    if s.hotkey = hk then (true, rest)
    else
      let r := removeAutoCastSkill rest hk
      (r.1, s :: r.2)

/-- `MacroConfig.add_macro` (config.py lines 133-137): appends the macro
dict to the list unconditionally and returns nothing. -/
def addMacro (macros : List MacroDef) (m : MacroDef) : List MacroDef :=
  macros ++ [m]

/-! ## src/core/macro_engine.py — hotkey resolver -/

/-- A captured pynput key event. `hasChar` is `hasattr(key, 'char')`
(true for printable `KeyCode`, false for special `Key` values); `char` may
still be `none` (pynput sets `char = None` for some key codes); `name` is
`str(key)` (for special keys a string such as `"Key.f9"`). -/
structure KeyEvent where
  hasChar : Bool
  char : Option String
  name : String
deriving DecidableEq, Repr

/-- `key_char` as computed at the top of `MacroEngine._handle_key_press`
(macro_engine.py lines 111-114): the `char` attribute when present,
otherwise `str(key)`. -/
def key_char (k : KeyEvent) : Option String :=
  if k.hasChar then k.char else some k.name

/-- `MacroEngine._key_matches` (macro_engine.py lines 129-138): a truthy
`char` is compared case-insensitively with the hotkey; otherwise the key
name with the `"Key."` marker stripped is compared. -/
def key_matches (k : KeyEvent) (hotkey : String) : Bool :=
  match k.hasChar, k.char with
  | true, some c =>
    if c ≠ "" then strLower c = strLower hotkey
    else strLower (k.name.replace "Key." "") = strLower hotkey
  | true, none => strLower (k.name.replace "Key." "") = strLower hotkey
  | false, _ => strLower (k.name.replace "Key." "") = strLower hotkey

/-- The test `key_char and key_char.lower() == hotkey.lower()` used by
both `_handle_quick_cast` (line 145) and `_handle_macro_hotkey`
(line 162): the key character must be truthy (present and non-empty). -/
def charHits (kc : Option String) (hotkey : String) : Bool :=
  match kc with
  | some c => c ≠ "" && strLower c = strLower hotkey
  | none => false

/-- What one captured key event makes the engine fire. -/
inductive Dispatch where
  | toggle
  | quickCast (hotkey : String)
  | macroRun (name : String)
deriving DecidableEq, Repr

/-- The quick-cast scan of `MacroEngine._handle_quick_cast`
(macro_engine.py lines 140-147): walk the slot → hotkey mapping in
insertion order, fire `_execute_quick_cast(hotkey)` at the first hit and
break. -/
def quick_cast_fire : List (String × String) → Option String → List Dispatch
  | [], _ => []
  | (_, hk) :: rest, kc =>
    if charHits kc hk then [Dispatch.quickCast hk]
    else quick_cast_fire rest kc

/-- The macro scan of `MacroEngine._handle_macro_hotkey`
(macro_engine.py lines 157-164): walk the macro list in definition order,
fire `_execute_macro(macro)` at the first hotkey hit and break. -/
def macro_fire : List MacroDef → Option String → List Dispatch
  | [], _ => []
  | m :: rest, kc =>
    if charHits kc m.hotkey then [Dispatch.macroRun m.name]
    else macro_fire rest kc

/-- `MacroEngine._handle_key_press` (macro_engine.py lines 109-127): the
global toggle hotkey is checked first and returns early; then, when
quick-cast is enabled, the quick-cast scan runs; then the macro scan runs
unconditionally. `qcEnabled` is the engine's `_quick_cast_enabled` flag. -/
def handle_key_press (st : Settings) (qcEnabled : Bool) (k : KeyEvent) :
    List Dispatch :=
  if key_matches k st.global_hotkey then [Dispatch.toggle]
  else
    (if qcEnabled then quick_cast_fire st.quick_cast.hotkeys (key_char k) else [])
      ++ macro_fire st.macros (key_char k)

/-! ## src/core/macro_engine.py — action sequencer -/

/-- Which input stack a sequencer call goes through: the DirectInput
controller or the pynput keyboard/mouse controllers. -/
inductive Dev where
  | di
  | pynput
deriving DecidableEq, Repr

/-- One call the action sequencer makes while executing actions. -/
inductive ECall where
  | press (d : Dev) (key : String)
  | release (d : Dev) (key : String)
  | tap (d : Dev) (key : String)
  | click (d : Dev) (button : String)
  | sleep (ms : Nat)
deriving DecidableEq, Repr

/-- The backend-selection state the sequencer branches on:
`self.use_direct_input`, `self.direct_input.available`, and whether the
pynput keyboard / mouse controllers were constructed. -/
structure EngineCfg where
  use_direct_input : Bool
  di_available : Bool
  has_keyboard : Bool
  has_mouse : Bool
deriving DecidableEq, Repr

/-- `if self.use_direct_input and self.direct_input.available` — the test
at every dispatch site. -/
def usesDI (cfg : EngineCfg) : Bool := cfg.use_direct_input && cfg.di_available

/-- The press loop of the combo branch: `for key in keys: press(key)`
(macro_engine.py lines 229-230 / 234-235). -/
def comboPressLoop (d : Dev) : List String → List ECall
  | [] => []
  | k :: ks => ECall.press d k :: comboPressLoop d ks

/-- The release loop of the combo branch:
`for key in reversed(keys): release(key)` (lines 231-232 / 236-237),
taking the already-reversed list. -/
def comboReleaseLoop (d : Dev) : List String → List ECall
  | [] => []
  | k :: ks => ECall.release d k :: comboReleaseLoop d ks

/-- `MacroEngine._execute_action` (macro_engine.py lines 187-237): the
calls one action issues, by variant, against the selected backend. -/
def execute_action (cfg : EngineCfg) : Action → List ECall
  | Action.key_press key =>
    if key = "" then []
    else if usesDI cfg then [ECall.tap Dev.di key]
    else if cfg.has_keyboard then
      [ECall.press Dev.pynput key, ECall.release Dev.pynput key]
    else []
  | Action.key_hold key dur =>
    if key = "" then []
    else if usesDI cfg then
      [ECall.press Dev.di key, ECall.sleep dur, ECall.release Dev.di key]
    else if cfg.has_keyboard then
      [ECall.press Dev.pynput key, ECall.sleep dur, ECall.release Dev.pynput key]
    else []
  | Action.mouse_click button =>
    if usesDI cfg then [ECall.click Dev.di button]
    else if cfg.has_mouse then
      [ECall.click Dev.pynput (if button = "left" then "left" else "right")]
    else []
  | Action.delay ms => [ECall.sleep ms]
  | Action.combo keys =>
    if usesDI cfg then
      comboPressLoop Dev.di keys ++ comboReleaseLoop Dev.di keys.reverse
    else if cfg.has_keyboard then
      comboPressLoop Dev.pynput keys ++ comboReleaseLoop Dev.pynput keys.reverse
    else []
  | Action.other => []

/-- The body of `run_macro` inside `MacroEngine._execute_macro`
(macro_engine.py lines 176-181): walk the action list, reading the
engine's `enabled` flag before each action and breaking as soon as it is
false. The flag is mutated concurrently (toggle / stop), so it is modelled
as the stream of values the successive checks observe: `enabled i` is what
the check before the i-th action reads. Returns the actions executed. -/
def runMacroActions (enabled : Nat → Bool) : List Action → Nat → List Action
  | [], _ => []
  | a :: rest, i =>
    if enabled i then a :: runMacroActions enabled rest (i + 1)
    else []

/-! ## src/core/macro_engine.py — macro execution manager -/

/-- `MacroEngine._execute_macro` (macro_engine.py lines 166-185) against
the set of names holding an in-flight handle (the keys of
`self._macro_threads`): when the name already has a handle the call
returns doing nothing; otherwise the handle is registered and a task is
spawned. Returns the new key set and whether a task was spawned. -/
def executeMacro (inflight : List String) (name : String) :
    List String × Bool :=
  if name ∈ inflight then (inflight, false)
  else (name :: inflight, true)

/-- `run_macro`'s final line `self._macro_threads.pop(macro_name, None)`
(macro_engine.py line 181), reached both on normal completion and after an
early break: the handle is removed. -/
def completeMacro (inflight : List String) (name : String) : List String :=
  inflight.erase name

/-- The operations that touch the in-flight mapping over the engine's
lifetime: a trigger, a run completing (normally or abandoned), and
`_stop_all_macros` clearing the mapping (line 282). -/
inductive MOp where
  | trigger (name : String)
  | complete (name : String)
  | stopAll
deriving DecidableEq, Repr

/-- One step of the in-flight-mapping state machine. -/
def mstep (inflight : List String) : MOp → List String
  | MOp.trigger n => (executeMacro inflight n).1
  | MOp.complete n => completeMacro inflight n
  | MOp.stopAll => []

/-! ## src/core/macro_engine.py — auto-cast sweep -/

/-- The hotkeys one sweep of `_auto_cast_loop` taps (macro_engine.py
lines 262-276): every entry of the skill list with a truthy hotkey, in
list order. -/
def autoCastSweepKeys (skills : List Skill) : List String :=
  skills.filterMap fun s => if s.hotkey = "" then none else some s.hotkey

/-! ## Helper predicates and lemmas -/

def isQuickCastDispatch : Dispatch → Bool
  | Dispatch.quickCast _ => true
  | _ => false

def isMacroRunDispatch : Dispatch → Bool
  | Dispatch.macroRun _ => true
  | _ => false

def isToggleDispatch : Dispatch → Bool
  | Dispatch.toggle => true
  | _ => false

def isReleaseCall : BackendCall → Bool
  | BackendCall.release _ => true
  | _ => false

def isPressCall : BackendCall → Bool
  | BackendCall.press _ => true
  | _ => false

def isMouseDownEvent : InputEvent → Bool
  | InputEvent.mouseDown _ => true
  | _ => false

def isMouseUpEvent : InputEvent → Bool
  | InputEvent.mouseUp _ => true
  | _ => false

theorem lookup_isSome_of_mem {l : List (String × Nat)} {a : String} {b : Nat}
    (h : (a, b) ∈ l) : (l.lookup a).isSome := by
  induction l with
  | nil => cases h
  | cons x t ih =>
    obtain ⟨k, v⟩ := x
    rw [List.mem_cons] at h
    rcases h with h | h
    · cases h
      simp [List.lookup]
    · by_cases hax : (a == k)
      · simp [List.lookup, hax]
      · simp only [List.lookup, hax]
        exact ih h

theorem scancode_table_keys_lower :
    ∀ p ∈ VK_TO_SCANCODE, strLower p.1 = p.1 := by decide

theorem comboPressLoop_eq_map (d : Dev) (ks : List String) :
    comboPressLoop d ks = ks.map (ECall.press d) := by
  induction ks with
  | nil => rfl
  | cons k t ih => simp [comboPressLoop, ih]

theorem comboReleaseLoop_eq_map (d : Dev) (ks : List String) :
    comboReleaseLoop d ks = ks.map (ECall.release d) := by
  induction ks with
  | nil => rfl
  | cons k t ih => simp [comboReleaseLoop, ih]

theorem quick_cast_fire_cases (hks : List (String × String)) (kc : Option String) :
    quick_cast_fire hks kc = [] ∨
      ∃ hk, quick_cast_fire hks kc = [Dispatch.quickCast hk] := by
  induction hks with
  | nil => exact Or.inl rfl
  | cons p t ih =>
    obtain ⟨sn, hk⟩ := p
    by_cases h : charHits kc hk
    · exact Or.inr ⟨hk, by simp [quick_cast_fire, h]⟩
    · simpa [quick_cast_fire, h] using ih

theorem macro_fire_cases (ms : List MacroDef) (kc : Option String) :
    macro_fire ms kc = [] ∨ ∃ n, macro_fire ms kc = [Dispatch.macroRun n] := by
  induction ms with
  | nil => exact Or.inl rfl
  | cons m t ih =>
    by_cases h : charHits kc m.hotkey
    · exact Or.inr ⟨m.name, by simp [macro_fire, h]⟩
    · simpa [macro_fire, h] using ih

/-- The number of checks `run_macro` passes before stopping: the length of
the executed prefix. -/
def stopCount (enabled : Nat → Bool) : Nat → Nat → Nat
  | _, 0 => 0
  | i, n + 1 => if enabled i then stopCount enabled (i + 1) n + 1 else 0

theorem runMacroActions_eq_take (enabled : Nat → Bool) (actions : List Action) :
    ∀ i, runMacroActions enabled actions i =
      actions.take (stopCount enabled i actions.length) := by
  induction actions with
  | nil => intro i; rfl
  | cons a t ih =>
    intro i
    by_cases h : enabled i
    · simp [runMacroActions, stopCount, h, ih]
    · simp [runMacroActions, stopCount, h]

theorem stopCount_le_of_disabled (enabled : Nat → Bool) :
    ∀ (n i j : Nat), i ≤ j → enabled j = false →
      stopCount enabled i n ≤ j - i := by
  intro n
  induction n with
  | zero => intro i j _ _; simp [stopCount]
  | succ n ih =>
    intro i j hij hj
    by_cases h : enabled i
    · have hne : i ≠ j := by
        intro he
        rw [he, hj] at h
        cases h
      have hij1 : i + 1 ≤ j := by omega
      have := ih (i + 1) j hij1 hj
      simp only [stopCount, h, if_true]
      omega
    · simp [stopCount, h]

/-! ## Claim theorems -/

/-- Claim C4: for every Combo action with key list ks, executing the
action issues exactly the presses of ks in list order followed by the
releases of ks in reverse order, on whichever backend is active (the
DirectInput controller when it is selected and available, otherwise the
pynput keyboard controller when constructed). -/
theorem combo_press_then_reverse_release (cfg : EngineCfg) (ks : List String)
    (hactive : usesDI cfg = true ∨ (usesDI cfg = false ∧ cfg.has_keyboard = true)) :
    ∃ d, execute_action cfg (Action.combo ks) =
      ks.map (ECall.press d) ++ ks.reverse.map (ECall.release d) := by
  rcases hactive with h | ⟨h, hk⟩
  · exact ⟨Dev.di, by
      simp [execute_action, h, comboPressLoop_eq_map, comboReleaseLoop_eq_map]⟩
  · exact ⟨Dev.pynput, by
      simp [execute_action, h, hk, comboPressLoop_eq_map, comboReleaseLoop_eq_map]⟩

/-- Witness for C4: a three-key combo on the DirectInput backend. -/
theorem combo_press_then_reverse_release_witness :
    ∃ d, execute_action ⟨true, true, false, false⟩
        (Action.combo ["a", "b", "c"]) =
      (["a", "b", "c"].map (ECall.press d)) ++
        (["a", "b", "c"].reverse.map (ECall.release d)) :=
  combo_press_then_reverse_release ⟨true, true, false, false⟩ ["a", "b", "c"]
    (Or.inl rfl)

/-- Claim C5: a load that fails — missing file, unreadable file, or parse
failure — returns false and leaves the in-memory settings exactly as they
were; a failing save also returns false and leaves them unchanged. -/
theorem load_save_failure_leaves_settings (st : Settings) (out : LoadOutcome)
    (hfail : out = LoadOutcome.missing ∨ out = LoadOutcome.readError ∨
      out = LoadOutcome.parseError) :
    load st out = (false, st) ∧ save st false = (false, st) := by
  rcases hfail with h | h | h <;> subst h <;> exact ⟨rfl, rfl⟩

/-- Witness for C5: a parse failure on the default settings. -/
theorem load_save_failure_leaves_settings_witness :
    load default_settings LoadOutcome.parseError = (false, default_settings) ∧
      save default_settings false = (false, default_settings) :=
  load_save_failure_leaves_settings default_settings LoadOutcome.parseError
    (Or.inr (Or.inr rfl))

/-- Claim C9: removing an auto-cast entry by hotkey returns false and
leaves the list unchanged when no entry matches, and returns true having
removed exactly one entry (the list is exactly one shorter) when one
does. -/
theorem removeAutoCastSkill_spec (skills : List Skill) (hk : String) :
    (hk ∉ skills.map Skill.hotkey →
      removeAutoCastSkill skills hk = (false, skills)) ∧
    (hk ∈ skills.map Skill.hotkey →
      (removeAutoCastSkill skills hk).1 = true ∧
        (removeAutoCastSkill skills hk).2.length + 1 = skills.length) := by
  induction skills with
  | nil => exact ⟨fun _ => rfl, fun h => by cases h⟩
  | cons s t ih =>
    constructor
    · intro hno
      rw [List.map_cons, List.mem_cons] at hno
      push_neg at hno
      have hs : s.hotkey ≠ hk := fun he => hno.1 he.symm
      simp only [removeAutoCastSkill, if_neg hs]
      rw [ih.1 hno.2]
    · intro hyes
      by_cases hs : s.hotkey = hk
      · simp [removeAutoCastSkill, hs]
      · rw [List.map_cons, List.mem_cons] at hyes
        rcases hyes with h | h
        · exact absurd h.symm hs
        · have := ih.2 h
          simp only [removeAutoCastSkill, if_neg hs, List.length_cons]
          exact ⟨this.1, by rw [← this.2]⟩

/-- Witness for C9: a one-entry list, removing a missing hotkey and the
present one. -/
theorem removeAutoCastSkill_spec_witness :
    removeAutoCastSkill [⟨"q", 100⟩] "w" = (false, [⟨"q", 100⟩]) ∧
      (removeAutoCastSkill [⟨"q", 100⟩] "q").1 = true ∧
        (removeAutoCastSkill [⟨"q", 100⟩] "q").2.length + 1 =
          [(⟨"q", 100⟩ : Skill)].length :=
  ⟨(removeAutoCastSkill_spec [⟨"q", 100⟩] "w").1 (by decide),
   (removeAutoCastSkill_spec [⟨"q", 100⟩] "q").2 (by decide)⟩

/-- Claim C8: the `enabled` flag is read before each action of a macro's
action list, and once a check observes false the remaining suffix is
abandoned: the executed actions form a prefix of the list of length at
most j for any check index j that observed false. -/
theorem disabled_mid_sequence_abandons_suffix (enabled : Nat → Bool)
    (actions : List Action) (j : Nat) (hj : enabled j = false) :
    ∃ m, m ≤ j ∧ runMacroActions enabled actions 0 = actions.take m := by
  refine ⟨stopCount enabled 0 actions.length, ?_, ?_⟩
  · have := stopCount_le_of_disabled enabled actions.length 0 j (Nat.zero_le j) hj
    omega
  · exact runMacroActions_eq_take enabled actions 0

/-- Witness for C8: the flag turns false before the second of three
actions; only a prefix of length at most one runs. -/
theorem disabled_mid_sequence_abandons_suffix_witness :
    ∃ m, m ≤ 1 ∧
      runMacroActions (fun i => decide (i = 0))
        [Action.delay 1, Action.delay 2, Action.delay 3] 0 =
      [Action.delay 1, Action.delay 2, Action.delay 3].take m :=
  disabled_mid_sequence_abandons_suffix (fun i => decide (i = 0))
    [Action.delay 1, Action.delay 2, Action.delay 3] 1 (by decide)

theorem mstep_nodup (fl : List String) (op : MOp) (h : fl.Nodup) :
    (mstep fl op).Nodup := by
  cases op with
  | trigger n =>
    by_cases hn : n ∈ fl
    · simpa [mstep, executeMacro, hn] using h
    · simpa [mstep, executeMacro, hn] using List.nodup_cons.mpr ⟨hn, h⟩
  | complete n => exact h.erase n
  | stopAll => exact List.nodup_nil

theorem foldl_mstep_nodup (ops : List MOp) :
    ∀ fl : List String, fl.Nodup → (ops.foldl mstep fl).Nodup := by
  induction ops with
  | nil => intro fl h; exact h
  | cons op t ih => intro fl h; exact ih (mstep fl op) (mstep_nodup fl op h)

/-- Claim C2: at most one execution per macro name is in flight. A trigger
for a name that already holds a handle changes nothing and spawns no task;
a trigger for a fresh name registers exactly that handle; completion
removes the name's handle; and after any sequence of triggers,
completions and stop-alls the handle keys stay duplicate-free. -/
theorem at_most_one_run_per_name (fl : List String) (n : String)
    (ops : List MOp) (hnd : fl.Nodup) :
    (n ∈ fl → executeMacro fl n = (fl, false)) ∧
    (n ∉ fl → executeMacro fl n = (n :: fl, true)) ∧
    n ∉ completeMacro fl n ∧
    (ops.foldl mstep fl).Nodup := by
  refine ⟨fun h => by simp [executeMacro, h], fun h => by simp [executeMacro, h],
    ?_, foldl_mstep_nodup ops fl hnd⟩
  intro hm
  simp only [completeMacro] at hm
  rw [List.Nodup.mem_erase_iff hnd] at hm
  exact hm.1 rfl

/-- Witness for C2: the name "m" already in flight, then completing it. -/
theorem at_most_one_run_per_name_witness :
    executeMacro ["m"] "m" = (["m"], false) ∧
      "m" ∉ completeMacro ["m"] "m" ∧
      (([MOp.trigger "m", MOp.trigger "m", MOp.complete "m"].foldl
        mstep ["m"])).Nodup := by
  have h := at_most_one_run_per_name ["m"] "m"
    [MOp.trigger "m", MOp.trigger "m", MOp.complete "m"] (by decide)
  exact ⟨h.1 (by decide), h.2.2.1, h.2.2.2⟩

/-- Claim C7: with the backend available, press and release report
success for every key name of the static scan-code table; the fallback
controller returns false from every operation and injects nothing. -/
theorem table_keys_press_release_succeed (c : DirectInput) (k : String)
    (scan : Nat) (hav : c.available = true) (hmem : (k, scan) ∈ VK_TO_SCANCODE) :
    (press_key c k).1 = true ∧ (release_key c k).1 = true ∧
    (∀ key button, fallback_press_key key = (false, []) ∧
      fallback_release_key key = (false, []) ∧
      fallback_tap_key key = (false, []) ∧
      fallback_click_mouse button = (false, [])) := by
  have hlow : strLower k = k := scancode_table_keys_lower (k, scan) hmem
  have hsome : (VK_TO_SCANCODE.lookup k).isSome := lookup_isSome_of_mem hmem
  obtain ⟨v, hv⟩ := Option.isSome_iff_exists.mp hsome
  refine ⟨?_, ?_, fun key button => ⟨rfl, rfl, rfl, rfl⟩⟩
  · simp [press_key, hav, hlow, hv]
  · simp [release_key, hav, hlow, hv]

/-- Witness for C7: the key "q" (scan code 0x10). -/
theorem table_keys_press_release_succeed_witness :
    (press_key ⟨true, fun _ => 0⟩ "q").1 = true ∧
      (release_key ⟨true, fun _ => 0⟩ "q").1 = true ∧
      (∀ key button, fallback_press_key key = (false, []) ∧
        fallback_release_key key = (false, []) ∧
        fallback_tap_key key = (false, []) ∧
        fallback_click_mouse button = (false, [])) :=
  table_keys_press_release_succeed ⟨true, fun _ => 0⟩ "q" 0x10 rfl (by decide)

/-- Claim C10: with the backend available, clicking any button name other
than left, right or middle returns false and injects nothing; each of the
three recognized names injects exactly one button-down and one button-up
event and returns true. -/
theorem click_mouse_button_names (c : DirectInput) (b : String)
    (hav : c.available = true) :
    ((b ≠ "left" ∧ b ≠ "right" ∧ b ≠ "middle") →
      click_mouse c b = (false, [])) ∧
    ((b = "left" ∨ b = "right" ∨ b = "middle") →
      (click_mouse c b).1 = true ∧
        (click_mouse c b).2.countP isMouseDownEvent = 1 ∧
        (click_mouse c b).2.countP isMouseUpEvent = 1) := by
  constructor
  · intro ⟨h1, h2, h3⟩
    simp [click_mouse, hav, h1, h2, h3]
  · intro h
    rcases h with h | h | h <;> subst h <;>
      simp [click_mouse, hav, List.countP_cons, isMouseDownEvent, isMouseUpEvent]

/-- Witness for C10: an unrecognized button name and the left button. -/
theorem click_mouse_button_names_witness :
    click_mouse ⟨true, fun _ => 0⟩ "x4" = (false, []) ∧
      (click_mouse ⟨true, fun _ => 0⟩ "left").1 = true ∧
      (click_mouse ⟨true, fun _ => 0⟩ "left").2.countP isMouseDownEvent = 1 ∧
      (click_mouse ⟨true, fun _ => 0⟩ "left").2.countP isMouseUpEvent = 1 :=
  ⟨(click_mouse_button_names ⟨true, fun _ => 0⟩ "x4" rfl).1
      (by refine ⟨?_, ?_, ?_⟩ <;> decide),
   (click_mouse_button_names ⟨true, fun _ => 0⟩ "left" rfl).2 (Or.inl rfl)⟩

/-- Counterexample to claim C1: with hotkey "q" registered both as the
quick-cast slot skill_1 binding (as in the defaults) and as a macro
trigger, one key event for "q" fires a quick-cast dispatch AND a macro
execution — `_handle_key_press` does not short-circuit between the
quick-cast scan and the macro scan. -/
theorem quick_cast_and_macro_both_fire_cex :
    handle_key_press
        { default_settings with macros := [⟨"m", "q", []⟩] } true
        ⟨true, some "q", "q"⟩ =
      [Dispatch.quickCast "q", Dispatch.macroRun "m"] := by decide

/-- Claim C1 as amended: the global-toggle hotkey is checked first and a
match short-circuits everything; otherwise at most one quick-cast binding
fires (none when quick-cast is disabled) and, independently, at most one
macro fires (first match in definition order) — but a quick-cast match
does not suppress the macro scan, so one event can fire one of each when
the same hotkey is registered in both namespaces. -/
theorem hotkey_resolution_order_amended (st : Settings) (qc : Bool)
    (k : KeyEvent) :
    (key_matches k st.global_hotkey = true →
      handle_key_press st qc k = [Dispatch.toggle]) ∧
    (key_matches k st.global_hotkey = false →
      (handle_key_press st qc k).countP isToggleDispatch = 0 ∧
      (handle_key_press st qc k).countP isQuickCastDispatch ≤ 1 ∧
      (handle_key_press st qc k).countP isMacroRunDispatch ≤ 1 ∧
      (qc = false →
        (handle_key_press st qc k).countP isQuickCastDispatch = 0)) := by
  constructor
  · intro h
    simp [handle_key_press, h]
  · intro h
    have hq := quick_cast_fire_cases st.quick_cast.hotkeys (key_char k)
    have hm := macro_fire_cases st.macros (key_char k)
    rcases hq with hq | ⟨hk, hq⟩ <;> rcases hm with hm | ⟨n, hm⟩ <;> cases qc <;>
      simp [handle_key_press, h, hq, hm, List.countP_append, List.countP_cons,
        isToggleDispatch, isQuickCastDispatch, isMacroRunDispatch]

/-- Witness for the amended C1: the default global hotkey f9 toggles and
nothing else fires; the "q" event of the counterexample configuration
fires no toggle, one quick-cast and one macro. -/
theorem hotkey_resolution_order_amended_witness :
    handle_key_press default_settings true ⟨true, some "f9", "f9"⟩ =
        [Dispatch.toggle] ∧
      ((handle_key_press { default_settings with macros := [⟨"m", "q", []⟩] }
          true ⟨true, some "q", "q"⟩).countP isToggleDispatch = 0 ∧
        (handle_key_press { default_settings with macros := [⟨"m", "q", []⟩] }
          true ⟨true, some "q", "q"⟩).countP isQuickCastDispatch ≤ 1 ∧
        (handle_key_press { default_settings with macros := [⟨"m", "q", []⟩] }
          true ⟨true, some "q", "q"⟩).countP isMacroRunDispatch ≤ 1 ∧
        (true = false →
          (handle_key_press { default_settings with macros := [⟨"m", "q", []⟩] }
            true ⟨true, some "q", "q"⟩).countP isQuickCastDispatch = 0)) :=
  ⟨(hotkey_resolution_order_amended default_settings true
      ⟨true, some "f9", "f9"⟩).1 (by decide),
   (hotkey_resolution_order_amended
      { default_settings with macros := [⟨"m", "q", []⟩] } true
      ⟨true, some "q", "q"⟩).2 (by decide)⟩

/-- Counterexample to claim C3: two `add_macro` calls with the same name
and two `add_auto_cast_skill` calls with the same hotkey are both
accepted silently (the add functions return nothing and reject nothing),
leaving two entries with the same macro name, and the auto-cast sweep
then fires the duplicated hotkey twice per sweep. -/
theorem duplicate_add_not_rejected_cex :
    (addMacro (addMacro [] ⟨"m", "x", []⟩) ⟨"m", "y", []⟩).map
        MacroDef.name = ["m", "m"] ∧
      autoCastSweepKeys
        (addAutoCastSkill (addAutoCastSkill [] ⟨"q", 100⟩) ⟨"q", 200⟩) =
        ["q", "q"] := by decide

/-- Claim C3 as amended: adding a macro whose name already exists, or an
auto-cast entry whose hotkey already exists, is NOT surfaced as a failure:
the entry is appended unconditionally, so the name/hotkey lists lose
uniqueness. Duplicate macro names cannot both fire on one event (the
dispatch scan stops at its first match), but duplicate auto-cast entries
for the same hotkey each fire in every sweep. -/
theorem duplicate_add_appends_amended (ms : List MacroDef) (m : MacroDef)
    (sks : List Skill) (s : Skill)
    (hm : m.name ∈ ms.map MacroDef.name)
    (hs : s.hotkey ∈ sks.map Skill.hotkey) (hne : s.hotkey ≠ "") :
    ¬ ((addMacro ms m).map MacroDef.name).Nodup ∧
    2 ≤ (autoCastSweepKeys (addAutoCastSkill sks s)).count s.hotkey ∧
    (∀ kc, (macro_fire (addMacro ms m) kc).length ≤ 1) := by
  refine ⟨?_, ?_, ?_⟩
  · intro hnd
    rw [addMacro, List.map_append] at hnd
    exact (List.nodup_append.mp hnd).2.2 hm (by simp)
  · have hmem : s.hotkey ∈ autoCastSweepKeys sks := by
      obtain ⟨x, hx, hxeq⟩ := List.mem_map.mp hs
      exact List.mem_filterMap.mpr ⟨x, hx, by rw [hxeq]; simp [hne]⟩
    have h1 : 1 ≤ (autoCastSweepKeys sks).count s.hotkey :=
      List.count_pos_iff.mpr hmem
    have h2 : autoCastSweepKeys (addAutoCastSkill sks s) =
        autoCastSweepKeys sks ++ [s.hotkey] := by
      rw [addAutoCastSkill, autoCastSweepKeys, List.filterMap_append]
      simp [autoCastSweepKeys, hne]
    rw [h2, List.count_append]
    have hself : List.count s.hotkey [s.hotkey] = 1 := by simp
    omega
  · intro kc
    rcases macro_fire_cases (addMacro ms m) kc with h | ⟨n, h⟩ <;> simp [h]

/-- Witness for the amended C3: duplicate name "m" and duplicate hotkey
"q" on one-element lists. -/
theorem duplicate_add_appends_amended_witness :
    ¬ ((addMacro [⟨"m", "x", []⟩] ⟨"m", "y", []⟩).map MacroDef.name).Nodup ∧
      2 ≤ (autoCastSweepKeys
        (addAutoCastSkill [⟨"q", 100⟩] ⟨"q", 200⟩)).count "q" ∧
      (∀ kc, (macro_fire (addMacro [⟨"m", "x", []⟩] ⟨"m", "y", []⟩) kc).length ≤ 1) :=
  duplicate_add_appends_amended [⟨"m", "x", []⟩] ⟨"m", "y", []⟩
    [⟨"q", 100⟩] ⟨"q", 200⟩ (by decide) (by decide) (by decide)

/-- Counterexample to claim C6: for the key "xyz" (no scan code, not a
single character) on an available backend, `tap_key` invokes `press_key`
once — which fails — and never invokes `release_key`; and the fallback
controller's tap invokes neither. So it is not true that every tap
invokes press exactly once and release exactly once. -/
theorem tap_without_release_cex :
    tap_key_calls ⟨true, fun _ => 0⟩ "xyz" = [BackendCall.press "xyz"] ∧
      (tap_key_calls ⟨true, fun _ => 0⟩ "xyz").countP isReleaseCall = 0 ∧
      (tap_key ⟨true, fun _ => 0⟩ "xyz").1 = false ∧
      fallback_tap_key_calls "a" = [] := by decide

/-- Claim C6 as amended: whenever `press_key` succeeds for a key,
`tap_key` is press, then a short wait, then release — each of press and
release invoked exactly once, and the injected trace is exactly the press
trace, the wait, then the release trace; when the press fails, tap
returns false without invoking release. -/
theorem tap_press_wait_release_amended (c : DirectInput) (k : String)
    (h : (press_key c k).1 = true) :
    tap_key_calls c k =
        [BackendCall.press k, BackendCall.wait, BackendCall.release k] ∧
      (tap_key_calls c k).countP isPressCall = 1 ∧
      (tap_key_calls c k).countP isReleaseCall = 1 ∧
      tap_key c k = ((release_key c k).1,
        (press_key c k).2 ++ InputEvent.wait :: (release_key c k).2) := by
  have h1 : tap_key_calls c k =
      [BackendCall.press k, BackendCall.wait, BackendCall.release k] := by
    simp [tap_key_calls, h]
  refine ⟨h1, ?_, ?_, ?_⟩
  · rw [h1]
    rfl
  · rw [h1]
    rfl
  · simp [tap_key, h]

/-- Witness for the amended C6: the key "a" on an available backend. -/
theorem tap_press_wait_release_amended_witness :
    tap_key_calls ⟨true, fun _ => 0⟩ "a" =
        [BackendCall.press "a", BackendCall.wait, BackendCall.release "a"] ∧
      (tap_key_calls ⟨true, fun _ => 0⟩ "a").countP isPressCall = 1 ∧
      (tap_key_calls ⟨true, fun _ => 0⟩ "a").countP isReleaseCall = 1 ∧
      tap_key ⟨true, fun _ => 0⟩ "a" = ((release_key ⟨true, fun _ => 0⟩ "a").1,
        (press_key ⟨true, fun _ => 0⟩ "a").2 ++
          InputEvent.wait :: (release_key ⟨true, fun _ => 0⟩ "a").2) :=
  tap_press_wait_release_amended ⟨true, fun _ => 0⟩ "a" (by decide)

end MacroImba
